import Mathlib

set_option autoImplicit false
set_option maxRecDepth 8192

/-! # GF(256) arithmetic of the QR subsystem

Shallow embedding of the Galois-field code in src/qr/qr_encoder.c and
src/qr/reed_solomon.c of the GBA-Crypto-Wallet repository, together with a
reference definition of multiplication in GF(2^8) modulo the primitive
polynomial x^8 + x^4 + x^3 + x^2 + 1 (bit mask 0x11D). -/

/-! # Reed-Solomon ECC (reed_solomon.c) -/

/-! # Format information (reed_solomon.c rs_generate_format_bits and the
FORMAT_INFO table of qr_encoder.c) -/

/-- The FORMAT_INFO table of qr_encoder.c: rows indexed by QrEcLevel
(L=0, M=1, Q=2, H=3), columns by mask pattern 0-7. -/
def FORMAT_INFO : List (List Nat) :=
  [[0x77C4, 0x72F3, 0x7DAA, 0x789D, 0x662F, 0x6318, 0x6C41, 0x6976],
   [0x5412, 0x5125, 0x5E7C, 0x5B4B, 0x45F9, 0x40CE, 0x4F97, 0x4AA0],
   [0x355F, 0x3068, 0x3F31, 0x3A06, 0x24B4, 0x2183, 0x2EDA, 0x2BED],
   [0x1689, 0x13BE, 0x1CE7, 0x19D0, 0x0762, 0x0255, 0x0D0C, 0x083B]]

/-- rs_generate_format_bits of reed_solomon.c: the 5-bit field is the raw
QrEcLevel value in the top 2 bits and the mask pattern in the low 3; 10 BCH
bits from generator 0x537 are appended and the result is xored with 0x5412.
Values are u16; the first store truncates. -/
def rs_generate_format_bits (ec_level mask_pattern : Nat) : Nat :=
  ((List.range 5).foldl
      (fun fi i => if fi &&& (1 <<< (14 - i)) != 0 then fi ^^^ (0x537 <<< (4 - i)) else fi)
      ((((ec_level <<< 3) ||| (mask_pattern &&& 0x7)) % 65536) <<< 10)
    &&& 0x3FF
    ||| ((((ec_level <<< 3) ||| (mask_pattern &&& 0x7)) % 65536) <<< 10)) ^^^ 0x5412

/-- Reference definition following the spec: the 15-bit format value for a
5-bit data field is the field in the top 5 bits, its 10-bit BCH remainder
modulo the generator polynomial 0x537 in the low 10 bits, the whole xored
with the fixed mask 0x5412. -/
def spec_format_bits (data5 : Nat) : Nat :=
  ((data5 <<< 10) |||
    ((List.range 5).foldl
        (fun c i => if c >>> (14 - i) &&& 1 == 1 then c ^^^ (0x537 <<< (4 - i)) else c)
        (data5 <<< 10)
      &&& 0x3FF)) ^^^ 0x5412

/-- Reference definition following the conformance reference of the spec (ISO/IEC
18004): the 2-bit format-field code of each EC level: L=01, M=00, Q=11,
H=10. The map is an involution, so it is also the code-to-level map. -/
def spec_ec_code (ec : Nat) : Nat := [1, 0, 3, 2].getD ec 0

/-- Reference: the spec format value of an (ecLevel, maskPattern) pair. -/
def spec_format_info (ec mask : Nat) : Nat :=
  spec_format_bits ((spec_ec_code ec <<< 3) ||| mask)

/-- Reference: reverse the fixed mask and drop the BCH bits of a 15-bit
format value, recovering the (ecLevel, maskPattern) pair of its data field. -/
def spec_format_decode (bits : Nat) : Nat × Nat :=
  (spec_ec_code (((bits ^^^ 0x5412) >>> 10 &&& 31) >>> 3),
   (bits ^^^ 0x5412) >>> 10 &&& 7)

/-- One step of the exponent-table loop of init_galois_field (qr_encoder.c):
the C statement x = (x << 1) ^ (x & 0x80 ? 0x11D : 0) on an int. -/
def gfExpStep (x : Nat) : Nat :=
  (x <<< 1) ^^^ (if x &&& 0x80 != 0 then 0x11D else 0)

/-- Value of the loop variable x of init_galois_field after i iterations. -/
def gfExpIter : Nat → Nat
  | 0 => 1
  | i + 1 => gfExpStep (gfExpIter i)

/-- The gf_exp table of qr_encoder.c: entry i (i < 255) stores the u8
truncation of the loop variable after i steps; entry 255 wraps to entry 0;
other indices are outside the C array and never read. -/
def gf_exp (i : Nat) : Nat :=
  if i < 255 then gfExpIter i % 256
  else if i = 255 then gfExpIter 0 % 256
  else 0

/-- The gf_log table of qr_encoder.c: zero-initialised, then the loop
for i < 255 performs gf_log[gf_exp[i]] = i, so the entry for v is the last
index i with gf_exp i = v, and 0 if there is none. -/
def gf_log (v : Nat) : Nat :=
  (List.range 255).foldl (fun acc i => if gf_exp i = v then i else acc) 0

/-- gf_mul of qr_encoder.c. -/
def gf_mul (a b : Nat) : Nat :=
  if a == 0 || b == 0 then 0
  else gf_exp ((gf_log a + gf_log b) % 255)

/-- One step of the exponent-table loop of rs_init_tables (reed_solomon.c):
x = (x << 1) ^ (x & 0x80 ? 0x1D : 0) on a u8 (truncated to 8 bits). -/
def rsExpStep (x : Nat) : Nat :=
  ((x <<< 1) ^^^ (if x &&& 0x80 != 0 then 0x1D else 0)) % 256

/-- Value of the loop variable x of rs_init_tables after i iterations. -/
def rsExpIter : Nat → Nat
  | 0 => 1
  | i + 1 => rsExpStep (rsExpIter i)

/-- The rs_exp_table of reed_solomon.c (entry 255 wraps to entry 0). -/
def rs_exp_table (i : Nat) : Nat :=
  if i < 255 then rsExpIter i
  else if i = 255 then rsExpIter 0
  else 0

/-- The rs_log_table of reed_solomon.c: the loop stores rs_log_table[x] = i
as the exponent table is generated (last write wins, default 0; the final
rs_log_table[0] = 0 store is the default already). -/
def rs_log_table (v : Nat) : Nat :=
  (List.range 255).foldl (fun acc i => if rs_exp_table i = v then i else acc) 0

/-- rs_gf_mul of reed_solomon.c, with its explicit wrap-around subtraction. -/
def rs_gf_mul (a b : Nat) : Nat :=
  if a == 0 || b == 0 then 0
  else
    rs_exp_table (if 255 ≤ rs_log_table a + rs_log_table b
      then rs_log_table a + rs_log_table b - 255
      else rs_log_table a + rs_log_table b)

/-- Reference definition: carry-less (GF(2) polynomial) product of two byte
operands, a recursion over the 8 bits of the first operand. -/
def clmulAux (k : Nat) : Nat → Nat → Nat :=
  Nat.rec (motive := fun _ => Nat → Nat → Nat)
    (fun _ _ => 0)
    (fun _ ih a b => (if a % 2 == 1 then b else 0) ^^^ ih (a / 2) (b <<< 1))
    k

/-- Carry-less product of two bytes as GF(2) polynomials. -/
def clmul (a b : Nat) : Nat := clmulAux 8 a b

/-- Reference definition: reduce a GF(2) polynomial of degree at most 15
modulo the primitive polynomial x^8+x^4+x^3+x^2+1 (mask 0x11D): long division
on bits, cancelling each set bit from position 15 down to position 8 (the
step with fuel k+1 handles bit k+8). -/
def polyReduceAux (k : Nat) : Nat → Nat :=
  Nat.rec (motive := fun _ => Nat → Nat)
    (fun c => c)
    (fun k ih c => ih (if c >>> (k + 8) &&& 1 == 1 then c ^^^ (0x11D <<< k) else c))
    k

/-- Modular reduction of a product of two byte polynomials (degree at most 14). -/
def polyReduce (c : Nat) : Nat := polyReduceAux 8 c

/-- Reference definition of the GF(256) product under primitive polynomial
x^8+x^4+x^3+x^2+1: polynomial product followed by modular reduction. -/
def gfmulSpec (a b : Nat) : Nat := polyReduce (clmul a b)

/-- Reference definition of the powers of the primitive element alpha = x
(bit mask 2) in GF(256), generated from element 1. -/
def powAlpha : Nat → Nat
  | 0 => 1
  | i + 1 => gfmulSpec (powAlpha i) 2

/-- Row 0 of the packed reduction table: lane b (8 bits wide) holds
polyReduce (b <<< 0); proved against polyReduce below. -/
def RTROW0 : Nat := 0xfffefdfcfbfaf9f8f7f6f5f4f3f2f1f0efeeedecebeae9e8e7e6e5e4e3e2e1e0dfdedddcdbdad9d8d7d6d5d4d3d2d1d0cfcecdcccbcac9c8c7c6c5c4c3c2c1c0bfbebdbcbbbab9b8b7b6b5b4b3b2b1b0afaeadacabaaa9a8a7a6a5a4a3a2a1a09f9e9d9c9b9a999897969594939291908f8e8d8c8b8a898887868584838281807f7e7d7c7b7a797877767574737271706f6e6d6c6b6a696867666564636261605f5e5d5c5b5a595857565554535251504f4e4d4c4b4a494847464544434241403f3e3d3c3b3a393837363534333231302f2e2d2c2b2a292827262524232221201f1e1d1c1b1a191817161514131211100f0e0d0c0b0a09080706050403020100

/-- Row 1 of the packed reduction table: lane b (8 bits wide) holds
polyReduce (b <<< 1); proved against polyReduce below. -/
def RTROW1 : Nat := 0xe3e1e7e5ebe9efedf3f1f7f5fbf9fffdc3c1c7c5cbc9cfcdd3d1d7d5dbd9dfdda3a1a7a5aba9afadb3b1b7b5bbb9bfbd838187858b898f8d939197959b999f9d636167656b696f6d737177757b797f7d434147454b494f4d535157555b595f5d232127252b292f2d333137353b393f3d030107050b090f0d131117151b191f1dfefcfaf8f6f4f2f0eeeceae8e6e4e2e0dedcdad8d6d4d2d0cecccac8c6c4c2c0bebcbab8b6b4b2b0aeacaaa8a6a4a2a09e9c9a98969492908e8c8a88868482807e7c7a78767472706e6c6a68666462605e5c5a58565452504e4c4a48464442403e3c3a38363432302e2c2a28262422201e1c1a18161412100e0c0a0806040200

/-- Row 2 of the packed reduction table: lane b (8 bits wide) holds
polyReduce (b <<< 2); proved against polyReduce below. -/
def RTROW2 : Nat := 0xdbdfd3d7cbcfc3c7fbfff3f7ebefe3e79b9f93978b8f8387bbbfb3b7abafa3a75b5f53574b4f43477b7f73776b6f63671b1f13170b0f03073b3f33372b2f2327c6c2cecad6d2dedae6e2eeeaf6f2fefa86828e8a96929e9aa6a2aeaab6b2beba46424e4a56525e5a66626e6a76727e7a06020e0a16121e1a26222e2a36323e3ae1e5e9edf1f5f9fdc1c5c9cdd1d5d9dda1a5a9adb1b5b9bd8185898d9195999d6165696d7175797d4145494d5155595d2125292d3135393d0105090d1115191dfcf8f4f0ece8e4e0dcd8d4d0ccc8c4c0bcb8b4b0aca8a4a09c9894908c8884807c7874706c6864605c5854504c4844403c3834302c2824201c1814100c080400

/-- Row 3 of the packed reduction table: lane b (8 bits wide) holds
polyReduce (b <<< 3); proved against polyReduce below. -/
def RTROW3 : Nat := 0xaba3bbb38b839b93ebe3fbf3cbc3dbd32b233b330b031b136b637b734b435b53b6bea6ae969e868ef6fee6eed6dec6ce363e262e161e060e767e666e565e464e91998189b1b9a1a9d1d9c1c9f1f9e1e9111901093139212951594149717961698c849c94aca4bcb4ccc4dcd4ece4fcf40c041c142c243c344c445c546c647c74dfd7cfc7fff7efe79f978f87bfb7afa75f574f477f776f671f170f073f372f27c2cad2dae2eaf2fa828a929aa2aab2ba424a525a626a727a020a121a222a323ae5edf5fdc5cdd5dda5adb5bd858d959d656d757d454d555d252d353d050d151df8f0e8e0d8d0c8c0b8b0a8a09890888078706860585048403830282018100800

/-- Row 4 of the packed reduction table: lane b (8 bits wide) holds
polyReduce (b <<< 4); proved against polyReduce below. -/
def RTROW4 : Nat := 0x4b5b6b7b0b1b2b3bcbdbebfb8b9babbb5646766616063626d6c6f6e69686b6a67161514131211101f1e1d1c1b1a191816c7c4c5c2c3c0c1cecfcccdcacbc8c9c3f2f1f0f7f6f5f4fbfaf9f8fffefdfcf2232021262724252a2b28292e2f2c2d205152535455565758595a5b5c5d5e5f518083828584878689888b8a8d8c8f8e8a3b38393e3f3c3d32333031363734353beae9e8efeeedece3e2e1e0e7e6e5e4e9989b9a9d9c9f9e919093929594979698494a4b4c4d4e4f40414243444546474d7c7f7e79787b7a75747776717073727cadaeafa8a9aaaba4a5a6a7a0a1a2a3aedfdcdddadbd8d9d6d7d4d5d2d3d0d1df0e0d0c0b0a090807060504030201000

/-- Row 5 of the packed reduction table: lane b (8 bits wide) holds
polyReduce (b <<< 5); proved against polyReduce below. -/
def RTROW5 : Nat := 0x96b6d6f6163656768babcbeb0b2b4b6bac8ceccc2c0c6c4cb191f1d131117151e2c2a28262422202ffdfbf9f7f5f3f1fd8f898b858781838c5e585a5456505257e5e3e1efedebe9e63432303e3c3a38344640424c4e484a459791939d9f999b90a2a4a6a8aaacaea1737577797b7d7f730107050b090f0d02d0d6d4dad8dedcd5b7b1b3bdbfb9bbb46660626c6e686a661412101e1c1a1817c5c3c1cfcdcbc9c2f0f6f4faf8fefcf32127252b292f2d21535557595b5d5f50828486888a8c8e8b393f3d333137353ae8eeece2e0e6e4e89a9c9e90929496994b4d4f414345474c7e787a747670727dafa9aba5a7a1a3afdddbd9d7d5d3d1de0c0a08060402000

/-- Row 6 of the packed reduction table: lane b (8 bits wide) holds
polyReduce (b <<< 6); proved against polyReduce below. -/
def RTROW6 : Nat := 0x3171b1f12c6cacec0b4b8bcb165696d64505c5855818d8987f3fffbf6222e2a2d9995919c4844404e3a36323febe7e3eaded2d6db0f0307097d717578aca0a4afcbc7c3ce1a16121c6864606db9b5b1b88c8084895d51555b2f23272afef2f6f145494d4094989c92e6eaeee3373b3f36020e0a07d3dfdbd5a1ada9a4707c787b6f63676abeb2b6b8ccc0c4c91d11151c2824202df9f5f1ff8b87838e5a565255e1ede9e4303c3836424e4a47939f9b92a6aaaea3777b7f7105090d00d4d8dcd7b3bfbbb6626e6a64101c1815c1cdc9c0f4f8fcf125292d23575b5f52868a8e893d313538ece0e4ea9e92969b4f43474e7a76727faba7a3add9d5d1dc0804000

/-- Row 7 of the packed reduction table: lane b (8 bits wide) holds
polyReduce (b <<< 7); proved against polyReduce below. -/
def RTROW7 : Nat := 0x62e27fff58d845c516960b8b2cac31b18a0a9717b030ad2dfe7ee363c444d959af2fb23295158808db5bc646e161fc7c47c75ada7dfd60e033b32eae09891494e565f878df5fc24291118c0cab2bb6360d8d109037b72aaa79f964e443c35ede28a835b512920f8f5cdc41c166e67bfbc040dd5dfa7ae767b434a9298e0e931371f16cec4bcb56d6058518983fbf22a299198404a323be3eed6df070d757ca4abc3ca12186069b1bc848d555f272ef6f54d449c96eee73f320a03dbd1a9a0787f676eb6bcc4cd15182029f1fb838a5251e9e038324a439b96aea77f750d04dcd3bbb26a601811c9c4fcf52d275f568e8d353ce4ee969f474a727ba3a9d1d8000

/-- Lookup into the packed reduction table: entry (i, b) is lane b of row i.
One literal per row keeps every kernel shift below 2048 bits. -/
def rt (i b : Nat) : Nat :=
  [RTROW0, RTROW1, RTROW2, RTROW3, RTROW4, RTROW5, RTROW6, RTROW7].getD i 0 >>> (b <<< 3) &&& 255

/-- Table-driven form of the reference product: xor of the reduced partial
products of the set bits of the first operand (index argument tracks the
current bit position). -/
def mulFastAux (b : Nat) (k : Nat) : Nat → Nat → Nat :=
  Nat.rec (motive := fun _ => Nat → Nat → Nat)
    (fun _ _ => 0)
    (fun _ ih a i => (if a % 2 == 1 then rt i b else 0) ^^^ ih (a / 2) (i + 1))
    k

/-- Table-driven reference product (proved equal to gfmulSpec below). -/
def mulFast (a b : Nat) : Nat := mulFastAux b 8 a 0

/-- The 256 entries of the exponent table packed into one literal, entry i in
bits [8 i, 8 i + 8); proved below to agree with the generated table. -/
def gfExpPacked : Nat := 0x18e47add86c361b83cfe9fa7db0582c160b8bcbebfbf3f7f5f47a3d90482412098a45ac562b9bc3eff9f279b259a251a653a7dde070381c0e078dc86432198241ae57a5dc6e3795c46231964babdbe3fff1f67bb3d7e5fc7e3f91c663bfd1e673b7d5e472399249aa55a452299a4da8542a158442219e4fa9da6db85c2e1785cc663397c5ec763b93c7edf87c3e1f81ce67bdd068341a0d884422118643afd9e271b65ba3dfe1fe7fb1d66bbbd3e7fdf0783c1e0f89ca65bc5e2f99c261be5fa1de6fb9d269ba5da05028140a058c46239fc1ee77b5d46a35944a259c4e279dc06030180c06038fc9ea75b45a2d984c261387cde8743a1d8040201008040201

/-- The 256 entries of the log table packed into one literal. -/
def gfLogPacked : Nat := 0xaf5850a8eaf4d674e8ade7e6e9d5ae4fd72c757aeb16f50b51a0a99cb05f59cb5a3eccbbb18660fbaa559d29523ba16cf66f0c7fec4917c476a47bb7d8432d1fa2416d4753393c849e5d2a14abd356f261befcdcb2978790cdcfbc955bd13f372e892023d99244117cb4b8267799a5e318fec531edde4a670d63808cf7c0700757a7f373ace5d44e2b79150a9f9b5eca3dba85fa54283a6b6e7e48c3a3b6421e404638835c13d2f1bddb968fce94d03688229110b32598e2fd30dd66628bbf06a672e44d78099ac9b9f9276a7dc2b51d458212f0da8e9335210f24e12f658a05714c08c8f869c11c81ef8d340ee064044bc7681bee33df03c61a320219010000

/-- Packed-table lookup for the exponent table. -/
def pexp (i : Nat) : Nat := gfExpPacked >>> (8 * i) &&& 255

/-- Packed-table lookup for the log table. -/
def plog (v : Nat) : Nat := gfLogPacked >>> (8 * v) &&& 255

/-- The packed-expression form of gf_mul: zero check, then exponent of the
sum of logarithms modulo 255, read from the packed tables. -/
def gf_mulPacked (a b : Nat) : Nat :=
  if a == 0 || b == 0 then 0 else pexp ((plog a + plog b) % 255)

/-- Bounded boolean checker: p holds at every index below the bound; written
with a bare Nat.rec so that kernel reduction is linear. -/
def natAll (p : Nat → Bool) (n : Nat) : Bool :=
  Nat.rec true (fun m ih => p m && ih) n

/-- The gf_log fold with the generated exponent table replaced by the packed
table (proved pointwise equal below). -/
def plogFold (v : Nat) : Nat :=
  (List.range 255).foldl (fun acc i => if pexp i = v then i else acc) 0

/-- rs_gf_poly_mul of reed_solomon.c: polynomials are coefficient lists (low
degree first; a degree-d polynomial is a list of length d+1); entry k of the
product accumulates rs_gf_mul p[i] q[j] over i + j = k, i ascending as in the
source loops. -/
def rs_gf_poly_mul (p q : List Nat) : List Nat :=
  (List.range (p.length + q.length - 1)).map fun k =>
    (List.range p.length).foldl
      (fun acc i =>
        if i ≤ k ∧ k - i < q.length then acc ^^^ rs_gf_mul (p.getD i 0) (q.getD (k - i) 0)
        else acc) 0

/-- rs_init_generator_polynomials of reed_solomon.c: row 1 holds (x + 1); row
n (n at least 2) is row n-1 times the linear factor (x + alpha^(n-1)), stored
low-to-high as [alpha^(n-1), 1]. Row 0 stays all zero and is never used. -/
def rs_generator_poly : Nat → List Nat
  | 0 => []
  | 1 => [1, 1]
  | n + 2 => rs_gf_poly_mul (rs_generator_poly (n + 1)) [rs_exp_table (n + 1), 1]

/-- One iteration of the division loop in rs_compute_ecc: the register ecc
(length n, leading remainder coefficient first) absorbs one data byte. -/
def rs_ecc_step (gen : List Nat) (n : Nat) (ecc : List Nat) (d : Nat) : List Nat :=
  if d ^^^ ecc.headD 0 ≠ 0 then
    (List.range (n - 1)).map
      (fun j => ecc.getD (j + 1) 0 ^^^ rs_gf_mul (d ^^^ ecc.headD 0) (gen.getD (n - j - 1) 0))
      ++ [rs_gf_mul (d ^^^ ecc.headD 0) (gen.getD 0 0)]
  else ecc.tail ++ [0]

/-- rs_compute_ecc of reed_solomon.c: validates the parameters (non-null
non-empty data, 0 < ecc_length < RS_MAX_POLY = 70), zeroes the register, then
runs the division loop over the data bytes. -/
def rs_compute_ecc (data : List Nat) (ecc_length : Nat) : Option (List Nat) :=
  if data.length ≤ 0 ∨ ecc_length ≤ 0 ∨ 70 ≤ ecc_length then none
  else some (data.foldl (rs_ecc_step (rs_generator_poly ecc_length) ecc_length)
    (List.replicate ecc_length 0))

/-- Reference definition following the spec: the generator polynomial for n
ECC codewords is the product of the linear factors (x - alpha^i) for i < n
(subtraction is xor in GF(256), so each factor is the list [alpha^i, 1]). -/
def spec_generator (n : Nat) : List Nat :=
  (List.range n).foldl (fun g i => rs_gf_poly_mul g [powAlpha i, 1]) [1]

/-- Reference definition following the spec: one step of polynomial long
division by a monic divisor, on coefficients listed highest degree first. gh
holds the coefficients of the divisor below its monic leading term, highest first.
The step cancels the leading coefficient f against the monic leading term and
subtracts (xor) f times the rest of the divisor from the next coefficients. -/
def div_step (gh : List Nat) : List Nat → List Nat
  | [] => []
  | f :: rest =>
      List.zipWith (fun a g => a ^^^ rs_gf_mul f g) (rest.take gh.length) gh
        ++ rest.drop gh.length

/-- Reference definition following the spec: remainder of the long division of
the message polynomial (coefficients highest degree first) by the spec
generator for n ECC codewords: one cancellation step per message coefficient
above the remainder width n. -/
def spec_poly_remainder (msg : List Nat) (n : Nat) : List Nat :=
  (div_step (((spec_generator n).take n).reverse))^[msg.length - n] msg

/-- Uniform form of the LFSR step (the zero-feedback branch coincides with it
because multiplication by zero feedback gives zero). -/
def lstepU (gh : List Nat) (r : List Nat) (d : Nat) : List Nat :=
  List.zipWith (fun a g => a ^^^ rs_gf_mul (d ^^^ r.headD 0) g) (r.tail ++ [0]) gh

/-! # QR encoder (qr_encoder.c, qr_system.c) -/

/-- VERSION_INFO table of qr_encoder.c: version, module size, and per-EC-level
byte capacities for the five supported versions. -/
def VERSION_INFO : List (Nat × Nat × List Nat) :=
  [(1, 21, [17, 14, 11, 7]),
   (2, 25, [32, 26, 20, 14]),
   (3, 29, [53, 42, 32, 24]),
   (4, 33, [78, 62, 46, 34]),
   (5, 37, [106, 84, 60, 44])]

/-- ALIGNMENT_POSITIONS of qr_encoder.c: the single nonzero alignment
coordinate for versions 2-5 (the source rows hold zeroes after index 0, and
the placement loop stops at the first zero). -/
def ALIGNMENT_POSITIONS (version : Nat) : Nat :=
  [18, 22, 26, 30].getD (version - 2) 0

/-- QrState of qr_system.h: the module buffer is modelled as a total function
on (row, column); data = none models a NULL pointer. The mask-pattern field
is a C int and may hold out-of-range values. -/
structure QrState where
  size : Nat
  data : Option (Nat → Nat → Nat)
  data_length : Nat
  ec_level : Nat
  mask_pattern : Int
  auto_mask : Bool

/-- qr_free of qr_system.c: frees the module buffer and clears size and
data_length; ec_level, mask_pattern and auto_mask are untouched. -/
def qr_free (st : QrState) : QrState :=
  { st with data := none, size := 0, data_length := 0 }

/-- The mask formulas of apply_mask_pattern (qr_encoder.c): x is the column
and y the row, as in the source loops; the switch has no default, so any
other pattern value flips nothing. -/
def mask_flip (mask_pattern : Int) (y x : Nat) : Bool :=
  if mask_pattern = 0 then (x + y) % 2 == 0
  else if mask_pattern = 1 then y % 2 == 0
  else if mask_pattern = 2 then x % 3 == 0
  else if mask_pattern = 3 then (x + y) % 3 == 0
  else if mask_pattern = 4 then (x / 3 + y / 2) % 2 == 0
  else if mask_pattern = 5 then (x * y) % 2 + (x * y) % 3 == 0
  else if mask_pattern = 6 then ((x * y) % 2 + (x * y) % 3) % 2 == 0
  else if mask_pattern = 7 then ((x + y) % 2 + (x * y) % 3) % 2 == 0
  else false

/-- The skip condition of apply_mask_pattern: row or column 6 (timing), or
one of the three 9-by-9 corner regions (x > size - 9 on C ints is size < x + 9
here; size is at least 21 wherever this runs). -/
def mask_skip (size y x : Nat) : Bool :=
  x == 6 || y == 6 || (decide (x < 9) && decide (y < 9))
    || (decide (size < x + 9) && decide (y < 9))
    || (decide (x < 9) && decide (size < y + 9))

/-- apply_mask_pattern of qr_encoder.c at module level: the loop body reads
and writes only cell (y, x), so the pass is modelled pointwise; cells outside
the grid are untouched. The range check on the pattern index lives in the
caller model, as the source returns false before touching the matrix. -/
def apply_mask (size : Nat) (mask_pattern : Int) (m : Nat → Nat → Nat) : Nat → Nat → Nat :=
  fun y x =>
    if y < size ∧ x < size ∧ mask_skip size y x = false ∧ mask_flip mask_pattern y x = true
    then m y x ^^^ 1
    else m y x

/-- Ring condition of the 7x7 finder pattern at local coordinates (u, v). -/
def finder_ring (u v : Nat) : Bool :=
  u == 0 || u == 6 || v == 0 || v == 6
    || (decide (2 ≤ u) && decide (u ≤ 4) && decide (2 ≤ v) && decide (v ≤ 4))

/-- The dark cells written by the three finder-pattern loops of
add_finder_patterns (top-left, top-right, bottom-left). -/
def finder_dark (size y x : Nat) : Bool :=
  (decide (y < 7) && decide (x < 7) && finder_ring y x)
    || (decide (y < 7) && decide (size - 7 ≤ x) && decide (x < size)
        && finder_ring y (x - (size - 7)))
    || (decide (size - 7 ≤ y) && decide (y < size) && decide (x < 7)
        && finder_ring (y - (size - 7)) x)

/-- The cells cleared by the separator loop of add_finder_patterns (the loop
index runs to 6, so each strip is 7 modules long). -/
def separator_cell (size y x : Nat) : Bool :=
  (y == 7 && decide (x < 7)) || (x == 7 && decide (y < 7))
    || (y == 7 && decide (size - 8 ≤ x) && decide (x < size - 1))
    || (x == size - 8 && decide (y < 7))
    || (y == size - 8 && decide (x < 7))
    || (x == 7 && decide (size - 8 ≤ y) && decide (y < size - 1))

/-- add_finder_patterns of qr_encoder.c, pointwise: the separator writes run
after the finder writes in the source, so they take priority here; the two
write sets are in fact disjoint. -/
def add_finder_patterns (size : Nat) (m : Nat → Nat → Nat) : Nat → Nat → Nat :=
  fun y x =>
    if separator_cell size y x then 0
    else if finder_dark size y x then 1
    else m y x

/-- add_alignment_patterns of qr_encoder.c, pointwise: one 5x5 pattern at the
diagonal position for versions 2-5, skipping cells that would overlap the
finder zones (never the case at these positions). -/
def add_alignment_patterns (size : Nat) (m : Nat → Nat → Nat) : Nat → Nat → Nat :=
  if size ≤ 21 then m
  else if (size - 17) / 4 < 2 ∨ 5 < (size - 17) / 4 then m
  else
    fun y x =>
      if ALIGNMENT_POSITIONS ((size - 17) / 4) - 2 ≤ y
          ∧ y ≤ ALIGNMENT_POSITIONS ((size - 17) / 4) + 2
          ∧ ALIGNMENT_POSITIONS ((size - 17) / 4) - 2 ≤ x
          ∧ x ≤ ALIGNMENT_POSITIONS ((size - 17) / 4) + 2
          ∧ (x = ALIGNMENT_POSITIONS ((size - 17) / 4) - 2
              ∨ x = ALIGNMENT_POSITIONS ((size - 17) / 4) + 2
              ∨ y = ALIGNMENT_POSITIONS ((size - 17) / 4) - 2
              ∨ y = ALIGNMENT_POSITIONS ((size - 17) / 4) + 2
              ∨ (x = ALIGNMENT_POSITIONS ((size - 17) / 4)
                  ∧ y = ALIGNMENT_POSITIONS ((size - 17) / 4)))
          ∧ ¬ ((x < 7 ∧ y < 7) ∨ (size < x + 8 ∧ y < 7) ∨ (x < 7 ∧ size < y + 8))
      then 1
      else m y x

/-- add_timing_patterns of qr_encoder.c, pointwise; the dark module at
(size-8, 8) is written last in the source, so it is tested first here. -/
def add_timing_patterns (size : Nat) (m : Nat → Nat → Nat) : Nat → Nat → Nat :=
  fun y x =>
    if y = size - 8 ∧ x = 8 then 1
    else if y = 6 ∧ 8 ≤ x ∧ x < size - 8 then (if x % 2 = 0 then 1 else 0)
    else if x = 6 ∧ 8 ≤ y ∧ y < size - 8 then (if y % 2 = 0 then 1 else 0)
    else m y x

/-- Single-cell store. -/
def upd (m : Nat → Nat → Nat) (r c v : Nat) : Nat → Nat → Nat :=
  fun y x => if y = r ∧ x = c then v else m y x

/-- add_format_info of qr_encoder.c: a fold of the 15-iteration loop, two
single-cell stores per iteration in program order (cell (8,8) is written at
i = 6 by the second copy and again at i = 7 by the first copy, and for size
21 the cells (8, 14) down to (8, 13) overlap between the copies, so program
order matters). The table is indexed with the current mask_pattern field; an
out-of-range field reads outside the C array, modelled by the 0 default. -/
def add_format_info (size ec_level : Nat) (mask_pattern : Int) (m : Nat → Nat → Nat) :
    Nat → Nat → Nat :=
  (List.range 15).foldl
    (fun acc i =>
      let b := if (FORMAT_INFO.getD ec_level []).getD mask_pattern.toNat 0 &&& (1 <<< i) != 0
        then 1 else 0
      let acc1 :=
        if i < 6 then upd acc i 8 b
        else if i < 8 then upd acc (i + 1) 8 b
        else upd acc 8 (size - 15 + i) b
      if i < 8 then upd acc1 8 (14 - i) b
      else upd acc1 (size - 15 + i) 8 b)
    m

/-- place_data of qr_encoder.c, pointwise: the placeholder checkerboard over
the central region (the data parameter is ignored by the source). -/
def place_data (size : Nat) (m : Nat → Nat → Nat) : Nat → Nat → Nat :=
  fun y x =>
    if 8 ≤ y ∧ y < size - 8 ∧ 8 ≤ x ∧ x < size - 8 ∧ x ≠ 6 ∧ y ≠ 6 ∧ (x + y) % 2 = 0
    then 1
    else m y x

/-- create_matrix of qr_encoder.c: memset to zero, then finder, alignment
(guarded by size > 21 both here and inside the callee), timing, format
information (read from the mask_pattern field as it is BEFORE mask
selection), version information (a no-op below version 7, hence for all
supported sizes), and the place_data checkerboard. -/
def create_matrix (size ec_level : Nat) (mask_pattern : Int) : Nat → Nat → Nat :=
  place_data size
    (add_format_info size ec_level mask_pattern
      (add_timing_patterns size
        (add_alignment_patterns size
          (add_finder_patterns size (fun _ _ => 0)))))

/-- encode_data of qr_encoder.c writes the text bytes verbatim into the
state buffer (row-major); the rest of the buffer keeps the memset of the caller
zeroes. No mode indicator, count, terminator or padding is produced. -/
def encode_data_buffer (size : Nat) (text : List Nat) : Nat → Nat → Nat :=
  fun y x => if y * size + x < text.length then text.getD (y * size + x) 0 else 0

/-- The codeword stream encode_data leaves in the state: data_length equals
the text length and the stored bytes are the text itself. -/
def encode_data_stream (text : List Nat) : List Nat := text

/-- The version-selection loop of qr_encode_text: the first VERSION_INFO
entry whose capacity at the EC level is at least the text length. -/
def select_version (len ec : Nat) : Option (Nat × Nat × List Nat) :=
  VERSION_INFO.find? (fun vi => decide (len ≤ vi.2.2.getD ec 0))

/-- evaluate_mask_pattern of qr_encoder.c ignores the matrix and the size and
returns rand() % 100; the PRNG is modelled as a stream of values, one
consumed per call. -/
def evaluate_mask_pattern (matrix : Nat → Nat → Nat) (size : Nat) (rand_val : Nat) : Nat :=
  rand_val % 100

/-- State of the automatic mask-selection loop: best score so far (none for
the C sentinel -1), its pattern index, the remaining PRNG stream and the
number of evaluate_mask_pattern calls. -/
structure MaskSel where
  best : Option Nat
  pattern : Nat
  rng : List Nat
  evals : Nat

/-- One iteration of the automatic mask-selection loop of qr_encode_text for
pattern i: a temporary copy is allocated (failure skips the whole iteration),
the mask is applied to the state matrix, the result is scored, and a strictly
smaller score wins (first minimum on ties); the matrix is then restored, so
only the score stream and the best pattern survive an iteration. -/
def mask_sel_step (matrix : Nat → Nat → Nat) (size : Nat) (allocs : Nat → Bool)
    (st : MaskSel) (i : Nat) : MaskSel :=
  if allocs (2 + i) then
    let score := evaluate_mask_pattern (apply_mask size (Int.ofNat i) matrix) size
      (st.rng.headD 0)
    match st.best with
    | none => ⟨some score, i, st.rng.tail, st.evals + 1⟩
    | some b =>
        if score < b then ⟨some score, i, st.rng.tail, st.evals + 1⟩
        else ⟨some b, st.pattern, st.rng.tail, st.evals + 1⟩
  else st

/-- The automatic mask-selection loop of qr_encode_text: one mask_sel_step
per pattern 0-7, starting from the C initial state best_score = -1,
best_pattern = 0. -/
def auto_mask_loop (matrix : Nat → Nat → Nat) (size : Nat) (allocs : Nat → Bool)
    (rng : List Nat) : MaskSel :=
  (List.range 8).foldl (mask_sel_step matrix size allocs) ⟨none, 0, rng, 0⟩

/-- qr_encode_text of qr_encoder.c: frees the state, selects the version,
allocates and clears the module buffer, runs encode_data, the no-op
add_error_correction, create_matrix, then selects a mask pattern
(automatically via the rand()-scored loop, or the forced field value,
rejected outside 0-7) and applies it. Returns the C result, the state after
the call, and the number of evaluate_mask_pattern calls. malloc outcomes come
from the oracle (0: module buffer, 1: the encode_data scratch buffer, 2 + i:
the temporary matrix of auto-mask iteration i). -/
def qr_encode_text (st : QrState) (text : List Nat) (ec_level : Nat)
    (allocs : Nat → Bool) (rng : List Nat) : Bool × QrState × Nat :=
  let st1 : QrState := { qr_free st with ec_level := ec_level }
  let len := text.length
  let st2 := match select_version len ec_level with
    | some vi => { st1 with size := vi.2.1 }
    | none => st1
  if (VERSION_INFO.getD 4 (0, 0, [])).2.2.getD ec_level 0 < len then
    (false, st2, 0)
  else if allocs 0 = false then
    (false, { st2 with data := none }, 0)
  else if allocs 1 = false then
    (false, qr_free { st2 with data := some (fun _ _ => 0), data_length := len }, 0)
  else
    let st3 : QrState :=
      { st2 with data := some (encode_data_buffer st2.size text), data_length := len }
    let matrix := create_matrix st3.size st3.ec_level st3.mask_pattern
    if st3.auto_mask then
      let sel := auto_mask_loop matrix st3.size allocs rng
      if 7 < sel.pattern then
        (false, qr_free { st3 with data := some matrix }, sel.evals)
      else
        (true, { st3 with
            data := some (apply_mask st3.size (Int.ofNat sel.pattern) matrix),
            mask_pattern := Int.ofNat sel.pattern }, sel.evals)
    else
      if st3.mask_pattern < 0 ∨ 7 < st3.mask_pattern then
        (false, qr_free { st3 with data := some matrix }, 0)
      else
        (true, { st3 with data := some (apply_mask st3.size st3.mask_pattern matrix) }, 0)

/-- Big-endian bit string of width w for a value (spec framing helper). -/
def natToBits (w v : Nat) : List Nat :=
  (List.range w).map fun k => v >>> (w - 1 - k) &&& 1

/-- Pack a bit list into bytes, 8 bits per byte, big-endian within a byte
(spec framing helper; the fuel is the list length, ample since every step
consumes eight bits). -/
def bitsToBytesAux : Nat → List Nat → List Nat
  | 0, _ => []
  | _, [] => []
  | fuel + 1, b :: bs =>
      ((b :: bs).take 8).foldl (fun acc bit => acc * 2 + bit) 0
        :: bitsToBytesAux fuel ((b :: bs).drop 8)

/-- Pack a bit list into bytes (spec framing helper). -/
def bitsToBytes (bits : List Nat) : List Nat := bitsToBytesAux bits.length bits

/-- Reference definition following the spec wording (section 4.3): the
byte-mode codeword stream for a payload at a given version and data-codeword
capacity: 4-bit mode indicator 0100, character-count indicator (8 bits for
versions 1-9, 16 for higher), the payload bytes, a 4-bit terminator 0000
truncated to the room remaining, zero bits to the next byte boundary, then
pad bytes 0xEC and 0x11 alternating up to the capacity. -/
def spec_data_encode (version capacity : Nat) (payload : List Nat) : List Nat :=
  let cc := if version ≤ 9 then 8 else 16
  let bits1 := [0, 1, 0, 0] ++ natToBits cc payload.length
    ++ payload.foldr (fun b acc => natToBits 8 b ++ acc) []
  let bits2 := bits1 ++ List.replicate (min 4 (capacity * 8 - bits1.length)) 0
  let bits3 := bits2 ++ List.replicate ((8 - bits2.length % 8) % 8) 0
  let bytes := bitsToBytes bits3
  bytes ++ (List.range (capacity - bytes.length)).map (fun i => if i % 2 = 0 then 0xEC else 0x11)

/-- Byte capacity of a supported version (1-5) at an EC level, as recorded in
the VERSION_INFO table. -/
def version_capacity (v ec : Nat) : Nat :=
  ((VERSION_INFO.getD (v - 1) (0, 0, [])).2.2).getD ec 0

/-- Reference definition following the spec wording: the smallest supported
version whose byte-mode capacity at the EC level reaches the payload
length (5 if none does). -/
def spec_min_version (len ec : Nat) : Nat :=
  if len ≤ version_capacity 1 ec then 1
  else if len ≤ version_capacity 2 ec then 2
  else if len ≤ version_capacity 3 ec then 3
  else if len ≤ version_capacity 4 ec then 4
  else 5

/-- Reference definition following the spec wording: the modules belonging to
the alignment pattern of a version 2-5 symbol (the full 5x5 block centred at
the standard position of the version). -/
def spec_alignment_module (size y x : Nat) : Bool :=
  decide (2 ≤ (size - 17) / 4) && decide ((size - 17) / 4 ≤ 5)
    && decide (ALIGNMENT_POSITIONS ((size - 17) / 4) - 2 ≤ y)
    && decide (y ≤ ALIGNMENT_POSITIONS ((size - 17) / 4) + 2)
    && decide (ALIGNMENT_POSITIONS ((size - 17) / 4) - 2 ≤ x)
    && decide (x ≤ ALIGNMENT_POSITIONS ((size - 17) / 4) + 2)


theorem natAll_succ (p : Nat → Bool) (m : Nat) :
    natAll p (m + 1) = (p m && natAll p m) := rfl

theorem natAll_sound (p : Nat → Bool) :
    ∀ n, natAll p n = true → ∀ i, i < n → p i = true := by
  intro n
  induction n with
  | zero => intro _ i hi; omega
  | succ m ih =>
    intro h i hi
    rw [natAll_succ, Bool.and_eq_true] at h
    rcases Nat.lt_succ_iff_lt_or_eq.mp hi with hlt | heq
    · exact ih h.2 i hlt
    · subst heq; exact h.1

theorem gf_exp_eq_pexp : ∀ i < 256, gf_exp i = pexp i := by decide

theorem rs_exp_eq_pexp : ∀ i < 256, rs_exp_table i = pexp i := by decide

theorem pexp_lt (i : Nat) : pexp i < 256 :=
  Nat.lt_succ_of_le (Nat.and_le_right)

theorem plog_lt : ∀ v < 256, plog v < 255 := by decide

theorem pexp_eq_powAlpha : ∀ i < 255, pexp i = powAlpha i := by decide

theorem plog_pexp : ∀ i < 255, plog (pexp i) = i := by decide

theorem plogFold_eq_plog : ∀ v < 256, plogFold v = plog v := by decide

/-- gf_log agrees with the packed log table on byte values. -/
theorem gf_log_eq_plog (v : Nat) (hv : v < 256) : gf_log v = plog v := by
  have h1 : gf_log v = plogFold v := by
    unfold gf_log plogFold
    refine List.foldl_ext _ _ 0 ?_
    intro a b hb
    rw [gf_exp_eq_pexp b (by have := List.mem_range.mp hb; omega)]
  rw [h1, plogFold_eq_plog v hv]

/-- rs_log_table agrees with the packed log table on byte values. -/
theorem rs_log_eq_plog (v : Nat) (hv : v < 256) : rs_log_table v = plog v := by
  have h1 : rs_log_table v = plogFold v := by
    unfold rs_log_table plogFold
    refine List.foldl_ext _ _ 0 ?_
    intro a b hb
    rw [rs_exp_eq_pexp b (by have := List.mem_range.mp hb; omega)]
  rw [h1, plogFold_eq_plog v hv]

theorem clmulAux_succ (k a b : Nat) :
    clmulAux (k + 1) a b = (if a % 2 == 1 then b else 0) ^^^ clmulAux k (a / 2) (b <<< 1) := rfl

theorem mulFastAux_succ (b k a i : Nat) :
    mulFastAux b (k + 1) a i
      = (if a % 2 == 1 then rt i b else 0) ^^^ mulFastAux b k (a / 2) (i + 1) := rfl

theorem polyReduceAux_succ (k c : Nat) :
    polyReduceAux (k + 1) c
      = polyReduceAux k (if c >>> (k + 8) &&& 1 == 1 then c ^^^ (0x11D <<< k) else c) := rfl

theorem xor_lcomm (a b c : Nat) : a ^^^ (b ^^^ c) = b ^^^ (a ^^^ c) := by
  rw [← Nat.xor_assoc, Nat.xor_comm a b, Nat.xor_assoc]

theorem shiftRight_xor_dist (x y t : Nat) : (x ^^^ y) >>> t = x >>> t ^^^ y >>> t := by
  apply Nat.eq_of_testBit_eq
  intro i
  simp [Nat.testBit_shiftRight, Nat.testBit_xor]

/-- One reduction step is GF(2)-linear. -/
theorem reduceStep_xor (t m x y : Nat) :
    (if (x ^^^ y) >>> t &&& 1 == 1 then (x ^^^ y) ^^^ m else x ^^^ y)
      = (if x >>> t &&& 1 == 1 then x ^^^ m else x)
        ^^^ (if y >>> t &&& 1 == 1 then y ^^^ m else y) := by
  have hb : (x ^^^ y) >>> t &&& 1 = (x >>> t &&& 1) ^^^ (y >>> t &&& 1) := by
    rw [shiftRight_xor_dist, Nat.and_xor_distrib_right]
  rw [hb, Nat.and_one_is_mod (x >>> t), Nat.and_one_is_mod (y >>> t)]
  rcases Nat.mod_two_eq_zero_or_one (x >>> t) with h1 | h1 <;>
    rcases Nat.mod_two_eq_zero_or_one (y >>> t) with h2 | h2 <;>
      rw [h1, h2] <;>
        simp [Nat.xor_assoc, Nat.xor_comm, xor_lcomm, Nat.xor_self, Nat.xor_zero]
  rw [← Nat.xor_assoc, Nat.xor_self, Nat.zero_xor]

/-- The bitwise modular reduction is GF(2)-linear. -/
theorem polyReduceAux_xor (k : Nat) : ∀ x y, polyReduceAux k (x ^^^ y) = polyReduceAux k x ^^^ polyReduceAux k y := by
  induction k with
  | zero => intro x y; rfl
  | succ m ih =>
    intro x y
    rw [polyReduceAux_succ, polyReduceAux_succ, polyReduceAux_succ, reduceStep_xor]
    exact ih _ _

theorem polyReduce_zero : polyReduce 0 = 0 := by decide

theorem rs_gf_mul_zero_left (g : Nat) : rs_gf_mul 0 g = 0 := rfl

theorem lstepU_length (gh r : List Nat) (d : Nat) (hr : r.length = gh.length)
    (h : 0 < gh.length) : (lstepU gh r d).length = gh.length := by
  simp [lstepU]
  omega

theorem rs_ecc_step_eq_lstepU (gen : List Nat) (n : Nat) (hn : 0 < n)
    (hgen : gen.length = n + 1) (r : List Nat) (hr : r.length = n) (d : Nat) :
    rs_ecc_step gen n r d = lstepU ((gen.take n).reverse) r d := by
  have hghlen : ((gen.take n).reverse).length = n := by
    simp [hgen]
  have hghget : ∀ i, i < n → ((gen.take n).reverse).getD i 0 = gen.getD (n - 1 - i) 0 := by
    intro i hi
    rw [List.getD_eq_getElem _ _ (by omega), List.getD_eq_getElem _ _ (by omega)]
    rw [List.getElem_reverse, List.getElem_take]
    congr 1
    simp [hgen]
  have hrtlen : (r.tail ++ [0]).length = n := by
    simp only [List.length_append, List.length_tail, List.length_cons, List.length_nil]
    omega
  have hlenB : (lstepU ((gen.take n).reverse) r d).length = n := by
    rw [lstepU_length _ _ _ (by omega) (by omega)]
    exact hghlen
  have hBght : ∀ i, i < n → ∀ hh : i < ((gen.take n).reverse).length,
      ((gen.take n).reverse)[i] = gen.getD (n - 1 - i) 0 := by
    intro i hi hh
    have := hghget i hi
    rw [List.getD_eq_getElem _ _ (by omega)] at this
    exact this
  by_cases hf : d ^^^ r.headD 0 ≠ 0
  · rw [rs_ecc_step, if_pos hf]
    apply List.ext_getElem
    · simp only [List.length_append, List.length_map, List.length_range, List.length_cons,
        List.length_nil, hlenB]
      omega
    · intro i h1 h2
      have hi : i < n := by rw [hlenB] at h2; exact h2
      simp only [lstepU]
      rw [List.getElem_zipWith]
      rw [hBght i hi (by omega)]
      rw [List.getElem_append]
      rw [List.getElem_append]
      by_cases hilt : i < n - 1
      · rw [dif_pos (by simp only [List.length_map, List.length_range]; omega)]
        rw [dif_pos (by simp only [List.length_tail]; omega)]
        rw [List.getElem_map, List.getElem_range, List.getElem_tail]
        rw [List.getD_eq_getElem _ _ (by omega)]
        congr 3
        omega
      · have hieq : i = n - 1 := by omega
        subst hieq
        rw [dif_neg (by simp only [List.length_map, List.length_range]; omega)]
        rw [dif_neg (by simp only [List.length_tail]; omega)]
        simp only [List.length_map, List.length_range, List.length_tail, hr, Nat.sub_self,
          List.getElem_cons_zero, Nat.zero_xor]
  · push_neg at hf
    rw [rs_ecc_step, if_neg (by simpa using hf)]
    apply List.ext_getElem
    · rw [hlenB]
      simp only [List.length_append, List.length_tail, List.length_cons, List.length_nil]
      omega
    · intro i h1 h2
      have hi : i < n := by rw [hlenB] at h2; exact h2
      simp only [lstepU]
      rw [List.getElem_zipWith]
      have hz : rs_gf_mul (d ^^^ r.headD 0)
          (((gen.take n).reverse)[i]) = 0 := by
        rw [hf, rs_gf_mul_zero_left]
      rw [hz, Nat.xor_zero]

theorem zipWith_xor_assoc (f : Nat) :
    ∀ (A B G : List Nat),
      List.zipWith (fun a g => a ^^^ rs_gf_mul f g) (List.zipWith Nat.xor A B) G
        = List.zipWith Nat.xor A (List.zipWith (fun b g => b ^^^ rs_gf_mul f g) B G) := by
  intro A
  induction A with
  | nil => intro B G; simp
  | cons a A ih =>
    intro B G
    cases B with
    | nil => simp
    | cons b B =>
      cases G with
      | nil => simp
      | cons g G =>
        simp only [List.zipWith_cons_cons, ih, List.cons.injEq]
        exact ⟨Nat.xor_assoc a b _, trivial⟩

theorem div_step_cons (gh : List Nat) (f : Nat) (rest : List Nat) :
    div_step gh (f :: rest)
      = List.zipWith (fun a g => a ^^^ rs_gf_mul f g) (rest.take gh.length) gh
        ++ rest.drop gh.length := rfl

theorem div_step_key (gh : List Nat) (d r0 : Nat) (rtail rest : List Nat)
    (hr : rtail.length + 1 = gh.length) (hrest : gh.length ≤ rest.length) :
    div_step gh
      (List.zipWith Nat.xor ((d :: rest).take gh.length) (r0 :: rtail)
        ++ (d :: rest).drop gh.length)
      = List.zipWith Nat.xor (rest.take gh.length) (lstepU gh (r0 :: rtail) d)
        ++ rest.drop gh.length := by
  obtain ⟨m, hm⟩ : ∃ m, gh.length = m + 1 := ⟨gh.length - 1, by omega⟩
  have hne : gh ≠ [] := by intro hc; rw [hc] at hm; simp at hm
  have hgh_split : gh.dropLast ++ [gh.getLast hne] = gh := List.dropLast_append_getLast hne
  have hgh0len : gh.dropLast.length = m := by
    rw [List.length_dropLast]; omega
  have hmr : rtail.length = m := by omega
  have hrl : m + 1 ≤ rest.length := by omega
  have hD : rest.drop m = rest.getD m 0 :: rest.drop (m + 1) := by
    rw [List.getD_eq_getElem _ _ (by omega)]
    exact (List.getElem_cons_drop rest m (by omega)).symm
  have hZlen : (List.zipWith Nat.xor (rest.take m) rtail).length = m := by
    simp only [List.length_zipWith, List.length_take, hmr]
    omega
  rw [hm, List.take_succ_cons, List.drop_succ_cons, List.zipWith_cons_cons, List.cons_append, div_step_cons]
  rw [hm]
  have htk : (List.zipWith Nat.xor (List.take m rest) rtail ++ List.drop m rest).take (m + 1)
      = List.zipWith Nat.xor (List.take m rest) rtail ++ [rest.getD m 0] := by
    rw [List.take_append_eq_append_take, hZlen]
    rw [List.take_of_length_le
      (show (List.zipWith Nat.xor (List.take m rest) rtail).length ≤ m + 1 from by omega)]
    rw [show m + 1 - m = 1 from by omega, hD]
    rfl
  have hdr : (List.zipWith Nat.xor (List.take m rest) rtail ++ List.drop m rest).drop (m + 1)
      = rest.drop (m + 1) := by
    rw [List.drop_append_eq_append_drop, hZlen]
    rw [List.drop_eq_nil_of_le
      (show (List.zipWith Nat.xor (List.take m rest) rtail).length ≤ m + 1 from by omega)]
    rw [show m + 1 - m = 1 from by omega, hD]
    rfl
  rw [htk, hdr]
  rw [← hgh_split]
  rw [List.zipWith_append _ _ _ _ _ (by rw [hZlen, hgh0len])]
  simp only [lstepU, List.headD_cons, List.tail_cons]
  rw [List.zipWith_append _ _ _ _ _ (by rw [hmr, hgh0len])]
  have htk2 : rest.take (m + 1) = rest.take m ++ [rest.getD m 0] := by
    rw [List.take_succ, List.getElem?_eq_getElem (show m < rest.length from by omega)]
    rw [List.getD_eq_getElem _ _ (show m < rest.length from by omega)]
    rfl
  rw [htk2]
  rw [List.zipWith_append _ _ _ _ _
    (by simp only [List.length_take, List.length_zipWith, hmr, hgh0len]; omega)]
  rw [zipWith_xor_assoc]
  simp only [List.zipWith_cons_cons, List.zipWith_nil_right, Nat.zero_xor, List.append_assoc]
  rfl

theorem zipWith_xor_zero (r : List Nat) : ∀ n, r.length = n →
    List.zipWith Nat.xor (List.replicate n 0) r = r := by
  induction r with
  | nil => intro n h; subst h; rfl
  | cons a l ih =>
    intro n h
    subst h
    rw [List.length_cons, List.replicate_succ, List.zipWith_cons_cons, ih l.length rfl]
    exact congrArg (fun z => z :: l) (Nat.zero_xor a)

theorem zipWith_xor_zero_right (x : List Nat) : ∀ n, x.length = n →
    List.zipWith Nat.xor x (List.replicate n 0) = x := by
  induction x with
  | nil => intro n h; subst h; rfl
  | cons a l ih =>
    intro n h
    subst h
    rw [List.length_cons, List.replicate_succ, List.zipWith_cons_cons, ih l.length rfl]
    exact congrArg (fun z => z :: l) (Nat.xor_zero a)

/-- The long division consumes the message one leading coefficient per step
and maintains the LFSR register xored into the leading remainder window. -/
theorem lfsr_inv (gh : List Nat) (hgh : 0 < gh.length) :
    ∀ (data : List Nat) (r : List Nat), r.length = gh.length →
      (div_step gh)^[data.length]
          (List.zipWith Nat.xor ((data ++ List.replicate gh.length 0).take gh.length) r
            ++ (data ++ List.replicate gh.length 0).drop gh.length)
        = data.foldl (lstepU gh) r := by
  intro data
  induction data with
  | nil =>
    intro r hr
    simp only [List.nil_append, List.length_nil, Function.iterate_zero, id_eq, List.foldl_nil]
    rw [List.take_of_length_le (by simp), List.drop_eq_nil_of_le (by simp)]
    rw [← hr, zipWith_xor_zero r r.length rfl]
    exact List.append_nil r
  | cons d data ih =>
    intro r hr
    obtain ⟨r0, rtail, rfl⟩ : ∃ r0 rtail, r = r0 :: rtail := by
      cases r with
      | nil => exfalso; rw [List.length_nil] at hr; omega
      | cons a l => exact ⟨a, l, rfl⟩
    rw [List.length_cons, Function.iterate_succ_apply, List.cons_append]
    rw [div_step_key gh d r0 rtail (data ++ List.replicate gh.length 0)
      (by rw [List.length_cons] at hr; omega) (by simp)]
    exact ih (lstepU gh (r0 :: rtail) d) (lstepU_length _ _ _ hr hgh)

theorem foldl_lstepU_length (gh : List Nat) (hgh : 0 < gh.length) :
    ∀ (data : List Nat) (r : List Nat), r.length = gh.length →
      (data.foldl (lstepU gh) r).length = gh.length := by
  intro data
  induction data with
  | nil => intro r hr; exact hr
  | cons d data ih =>
    intro r hr
    rw [List.foldl_cons]
    exact ih _ (lstepU_length _ _ _ hr hgh)

theorem rs_foldl_eq (gen : List Nat) (n : Nat) (hn : 0 < n) (hgen : gen.length = n + 1) :
    ∀ (data : List Nat) (r : List Nat), r.length = n →
      data.foldl (rs_ecc_step gen n) r = data.foldl (lstepU ((gen.take n).reverse)) r := by
  intro data
  induction data with
  | nil => intro r _; rfl
  | cons d data ih =>
    intro r hr
    rw [List.foldl_cons, List.foldl_cons, rs_ecc_step_eq_lstepU gen n hn hgen r hr d]
    refine ih _ ?_
    rw [lstepU_length _ _ _ (by rw [hr]; simp [hgen]) (by simp [hgen]; omega)]
    simp [hgen]

theorem rs_gf_poly_mul_length (p q : List Nat) :
    (rs_gf_poly_mul p q).length = p.length + q.length - 1 := by
  simp [rs_gf_poly_mul]

theorem rs_generator_poly_length : ∀ n, 1 ≤ n → (rs_generator_poly n).length = n + 1 := by
  intro n
  induction n with
  | zero => intro h; omega
  | succ m ih =>
    intro _
    cases m with
    | zero => rfl
    | succ k =>
      show (rs_gf_poly_mul (rs_generator_poly (k + 1)) [rs_exp_table (k + 1), 1]).length
        = k + 2 + 1
      rw [rs_gf_poly_mul_length, ih (by omega)]
      simp

theorem spec_generator_succ (n : Nat) :
    spec_generator (n + 1) = rs_gf_poly_mul (spec_generator n) [powAlpha n, 1] := by
  unfold spec_generator
  rw [List.range_succ, List.foldl_append, List.foldl_cons, List.foldl_nil]

theorem rs_exp_table_eq_powAlpha (i : Nat) (h : i < 255) : rs_exp_table i = powAlpha i := by
  rw [rs_exp_eq_pexp i (by omega)]
  exact pexp_eq_powAlpha i h

theorem rs_generator_poly_eq_spec : ∀ n, 1 ≤ n → n < 70 →
    rs_generator_poly n = spec_generator n := by
  intro n
  induction n with
  | zero => intro h _; omega
  | succ m ih =>
    intro _ hle
    cases m with
    | zero =>
      show rs_generator_poly 1 = spec_generator 1
      decide
    | succ k =>
      show rs_gf_poly_mul (rs_generator_poly (k + 1)) [rs_exp_table (k + 1), 1] = _
      rw [ih (by omega) (by omega), rs_exp_table_eq_powAlpha (k + 1) (by omega),
        ← spec_generator_succ]

/-- C2: for every non-empty data block and every eccLength with
1 <= eccLength < 70, rs_compute_ecc outputs exactly eccLength codewords equal
to the remainder of dividing the message polynomial (data bytes as leading
coefficients, zero-padded by eccLength low terms) by the generator polynomial
for eccLength, and that generator is the product of (x - alpha^i) for
i < eccLength, built incrementally from (x - 1) one linear factor per step. -/
theorem C2_rs_compute_ecc_correct (data : List Nat) (n : Nat)
    (hd : data ≠ []) (h1 : 1 ≤ n) (h70 : n < 70) :
    rs_compute_ecc data n = some (spec_poly_remainder (data ++ List.replicate n 0) n) ∧
    (spec_poly_remainder (data ++ List.replicate n 0) n).length = n ∧
    rs_generator_poly n = spec_generator n := by
  have hgeq := rs_generator_poly_eq_spec n h1 h70
  have hglen : (rs_generator_poly n).length = n + 1 := rs_generator_poly_length n h1
  have hslen : (spec_generator n).length = n + 1 := by rw [← hgeq]; exact hglen
  have hghlen : (((spec_generator n).take n).reverse).length = n := by
    simp [hslen]
  have hmlen : (data ++ List.replicate n 0).length - n = data.length := by
    simp
  have htklen : ((data ++ List.replicate n 0).take n).length = n := by
    simp only [List.length_take, List.length_append, List.length_replicate]
    omega
  have hWmsg :
      List.zipWith Nat.xor ((data ++ List.replicate n 0).take n) (List.replicate n 0)
        ++ (data ++ List.replicate n 0).drop n
      = data ++ List.replicate n 0 := by
    rw [zipWith_xor_zero_right _ n htklen, List.take_append_drop]
  have h := lfsr_inv (((spec_generator n).take n).reverse) (by omega) data
    (List.replicate n 0) (by rw [List.length_replicate, hghlen])
  rw [hghlen] at h
  have hrem : spec_poly_remainder (data ++ List.replicate n 0) n
      = data.foldl (lstepU (((spec_generator n).take n).reverse)) (List.replicate n 0) := by
    unfold spec_poly_remainder
    rw [hmlen, ← hWmsg, h]
  refine ⟨?_, ?_, hgeq⟩
  · unfold rs_compute_ecc
    rw [if_neg (by push_neg; exact ⟨by have := List.length_pos.mpr hd; omega, by omega, by omega⟩)]
    rw [rs_foldl_eq (rs_generator_poly n) n (by omega) hglen data _ (by simp)]
    rw [hgeq, hrem]
  · rw [hrem]
    rw [foldl_lstepU_length (((spec_generator n).take n).reverse) (by omega) data _
      (by rw [List.length_replicate, hghlen])]
    exact hghlen

/-- Witness for C2 on the block [104, 101, 108, 108, 111] with 7 ECC bytes. -/
theorem C2_rs_compute_ecc_correct_witness :
    ([104, 101, 108, 108, 111] : List Nat) ≠ [] ∧ 1 ≤ 7 ∧ 7 < 70 ∧
    (rs_compute_ecc [104, 101, 108, 108, 111] 7
        = some (spec_poly_remainder ([104, 101, 108, 108, 111] ++ List.replicate 7 0) 7) ∧
      (spec_poly_remainder ([104, 101, 108, 108, 111] ++ List.replicate 7 0) 7).length = 7 ∧
      rs_generator_poly 7 = spec_generator 7) :=
  ⟨by decide, by decide, by decide,
   C2_rs_compute_ecc_correct [104, 101, 108, 108, 111] 7 (by decide) (by decide) (by decide)⟩

/-- Bulk check, evaluated by the kernel: the packed reduction rows match
polyReduce on all 2048 entries. -/
theorem rtCheck_true :
    natAll (fun i => natAll (fun b => rt i b == polyReduce (b <<< i)) 256) 8 = true := by
  decide!

theorem rt_eq (i b : Nat) (hi : i < 8) (hb : b < 256) : rt i b = polyReduce (b <<< i) := by
  have h1 := natAll_sound _ 8 rtCheck_true i hi
  have h2 := natAll_sound _ 256 h1 b hb
  exact Nat.beq_eq_true_eq _ _ |>.mp h2

/-- The table-driven product agrees with the reference product: the carry-less
product is the xor of its per-bit partial products and the modular reduction
is GF(2)-linear, so the reduction distributes onto the table entries. -/
theorem gfmulSpec_eq_mulFast (a b : Nat) (hb : b < 256) : gfmulSpec a b = mulFast a b := by
  have key : ∀ k, ∀ a i, i + k ≤ 8 →
      polyReduce (clmulAux k a (b <<< i)) = mulFastAux b k a i := by
    intro k
    induction k with
    | zero => intro a i _; exact polyReduce_zero
    | succ m ih =>
      intro a i hik
      rw [clmulAux_succ, mulFastAux_succ]
      unfold polyReduce
      rw [polyReduceAux_xor]
      show polyReduce _ ^^^ polyReduce _ = _
      rw [← Nat.shiftLeft_add, apply_ite polyReduce, polyReduce_zero,
        rt_eq i b (by omega) hb, ih (a / 2) (i + 1) (by omega)]
  have h0 : gfmulSpec a b = polyReduce (clmulAux 8 a (b <<< 0)) := by
    rw [Nat.shiftLeft_zero]; rfl
  rw [h0, key 8 a 0 (by omega)]; rfl

/-- Bulk check, evaluated by the kernel: the table-driven reference product
agrees with the packed multiplication for first operands 0 to 15 and
every second operand below 256. -/
theorem mulCheck_c0 :
    natAll (fun i => natAll (fun b =>
      mulFast (0 + i) b == gf_mulPacked (0 + i) b) 256) 16 = true := by
  decide!

/-- Bulk check, evaluated by the kernel: the table-driven reference product
agrees with the packed multiplication for first operands 16 to 31 and
every second operand below 256. -/
theorem mulCheck_c1 :
    natAll (fun i => natAll (fun b =>
      mulFast (16 + i) b == gf_mulPacked (16 + i) b) 256) 16 = true := by
  decide!

/-- Bulk check, evaluated by the kernel: the table-driven reference product
agrees with the packed multiplication for first operands 32 to 47 and
every second operand below 256. -/
theorem mulCheck_c2 :
    natAll (fun i => natAll (fun b =>
      mulFast (32 + i) b == gf_mulPacked (32 + i) b) 256) 16 = true := by
  decide!

/-- Bulk check, evaluated by the kernel: the table-driven reference product
agrees with the packed multiplication for first operands 48 to 63 and
every second operand below 256. -/
theorem mulCheck_c3 :
    natAll (fun i => natAll (fun b =>
      mulFast (48 + i) b == gf_mulPacked (48 + i) b) 256) 16 = true := by
  decide!

/-- Bulk check, evaluated by the kernel: the table-driven reference product
agrees with the packed multiplication for first operands 64 to 79 and
every second operand below 256. -/
theorem mulCheck_c4 :
    natAll (fun i => natAll (fun b =>
      mulFast (64 + i) b == gf_mulPacked (64 + i) b) 256) 16 = true := by
  decide!

/-- Bulk check, evaluated by the kernel: the table-driven reference product
agrees with the packed multiplication for first operands 80 to 95 and
every second operand below 256. -/
theorem mulCheck_c5 :
    natAll (fun i => natAll (fun b =>
      mulFast (80 + i) b == gf_mulPacked (80 + i) b) 256) 16 = true := by
  decide!

/-- Bulk check, evaluated by the kernel: the table-driven reference product
agrees with the packed multiplication for first operands 96 to 111 and
every second operand below 256. -/
theorem mulCheck_c6 :
    natAll (fun i => natAll (fun b =>
      mulFast (96 + i) b == gf_mulPacked (96 + i) b) 256) 16 = true := by
  decide!

/-- Bulk check, evaluated by the kernel: the table-driven reference product
agrees with the packed multiplication for first operands 112 to 127 and
every second operand below 256. -/
theorem mulCheck_c7 :
    natAll (fun i => natAll (fun b =>
      mulFast (112 + i) b == gf_mulPacked (112 + i) b) 256) 16 = true := by
  decide!

/-- Bulk check, evaluated by the kernel: the table-driven reference product
agrees with the packed multiplication for first operands 128 to 143 and
every second operand below 256. -/
theorem mulCheck_c8 :
    natAll (fun i => natAll (fun b =>
      mulFast (128 + i) b == gf_mulPacked (128 + i) b) 256) 16 = true := by
  decide!

/-- Bulk check, evaluated by the kernel: the table-driven reference product
agrees with the packed multiplication for first operands 144 to 159 and
every second operand below 256. -/
theorem mulCheck_c9 :
    natAll (fun i => natAll (fun b =>
      mulFast (144 + i) b == gf_mulPacked (144 + i) b) 256) 16 = true := by
  decide!

/-- Bulk check, evaluated by the kernel: the table-driven reference product
agrees with the packed multiplication for first operands 160 to 175 and
every second operand below 256. -/
theorem mulCheck_c10 :
    natAll (fun i => natAll (fun b =>
      mulFast (160 + i) b == gf_mulPacked (160 + i) b) 256) 16 = true := by
  decide!

/-- Bulk check, evaluated by the kernel: the table-driven reference product
agrees with the packed multiplication for first operands 176 to 191 and
every second operand below 256. -/
theorem mulCheck_c11 :
    natAll (fun i => natAll (fun b =>
      mulFast (176 + i) b == gf_mulPacked (176 + i) b) 256) 16 = true := by
  decide!

/-- Bulk check, evaluated by the kernel: the table-driven reference product
agrees with the packed multiplication for first operands 192 to 207 and
every second operand below 256. -/
theorem mulCheck_c12 :
    natAll (fun i => natAll (fun b =>
      mulFast (192 + i) b == gf_mulPacked (192 + i) b) 256) 16 = true := by
  decide!

/-- Bulk check, evaluated by the kernel: the table-driven reference product
agrees with the packed multiplication for first operands 208 to 223 and
every second operand below 256. -/
theorem mulCheck_c13 :
    natAll (fun i => natAll (fun b =>
      mulFast (208 + i) b == gf_mulPacked (208 + i) b) 256) 16 = true := by
  decide!

/-- Bulk check, evaluated by the kernel: the table-driven reference product
agrees with the packed multiplication for first operands 224 to 239 and
every second operand below 256. -/
theorem mulCheck_c14 :
    natAll (fun i => natAll (fun b =>
      mulFast (224 + i) b == gf_mulPacked (224 + i) b) 256) 16 = true := by
  decide!

/-- Bulk check, evaluated by the kernel: the table-driven reference product
agrees with the packed multiplication for first operands 240 to 255 and
every second operand below 256. -/
theorem mulCheck_c15 :
    natAll (fun i => natAll (fun b =>
      mulFast (240 + i) b == gf_mulPacked (240 + i) b) 256) 16 = true := by
  decide!

/-- Combination of the sixteen bulk checks: the table-driven reference
product agrees with the packed multiplication on all 65536 pairs. -/
theorem mulCheck_all (a b : Nat) (ha : a < 256) (hb : b < 256) :
    (mulFast a b == gf_mulPacked a b) = true := by
  have h16 : a % 16 < 16 := Nat.mod_lt _ (by omega)
  have key : ∀ t, natAll (fun i => natAll (fun b =>
      mulFast (t + i) b == gf_mulPacked (t + i) b) 256) 16 = true →
      a / 16 * 16 = t → (mulFast a b == gf_mulPacked a b) = true := by
    intro t ht hteq
    have h1 := natAll_sound _ 16 ht (a % 16) h16
    have h2 := natAll_sound _ 256 h1 b hb
    have hsum : t + a % 16 = a := by omega
    rwa [hsum] at h2
  have hsplit : a / 16 = 0 ∨ a / 16 = 1 ∨ a / 16 = 2 ∨ a / 16 = 3 ∨ a / 16 = 4
      ∨ a / 16 = 5 ∨ a / 16 = 6 ∨ a / 16 = 7 ∨ a / 16 = 8 ∨ a / 16 = 9
      ∨ a / 16 = 10 ∨ a / 16 = 11 ∨ a / 16 = 12 ∨ a / 16 = 13 ∨ a / 16 = 14
      ∨ a / 16 = 15 := by omega
  rcases hsplit with h | h | h | h | h | h | h | h | h | h | h | h | h | h | h | h
  · exact key 0 mulCheck_c0 (by omega)
  · exact key 16 mulCheck_c1 (by omega)
  · exact key 32 mulCheck_c2 (by omega)
  · exact key 48 mulCheck_c3 (by omega)
  · exact key 64 mulCheck_c4 (by omega)
  · exact key 80 mulCheck_c5 (by omega)
  · exact key 96 mulCheck_c6 (by omega)
  · exact key 112 mulCheck_c7 (by omega)
  · exact key 128 mulCheck_c8 (by omega)
  · exact key 144 mulCheck_c9 (by omega)
  · exact key 160 mulCheck_c10 (by omega)
  · exact key 176 mulCheck_c11 (by omega)
  · exact key 192 mulCheck_c12 (by omega)
  · exact key 208 mulCheck_c13 (by omega)
  · exact key 224 mulCheck_c14 (by omega)
  · exact key 240 mulCheck_c15 (by omega)

theorem gf_mulPacked_eq_gfmulSpec (a b : Nat) (ha : a < 256) (hb : b < 256) :
    gf_mulPacked a b = gfmulSpec a b := by
  have h2 := mulCheck_all a b ha hb
  rw [gfmulSpec_eq_mulFast a b hb]
  exact (Nat.beq_eq_true_eq _ _ |>.mp h2).symm

theorem gf_mul_eq_packed (a b : Nat) (ha : a < 256) (hb : b < 256) :
    gf_mul a b = gf_mulPacked a b := by
  unfold gf_mul gf_mulPacked
  by_cases h : (a == 0 || b == 0) = true
  · rw [if_pos h, if_pos h]
  · rw [if_neg h, if_neg h, gf_log_eq_plog a ha, gf_log_eq_plog b hb]
    exact gf_exp_eq_pexp _ (by omega)

theorem rs_gf_mul_eq_packed (a b : Nat) (ha : a < 256) (hb : b < 256) :
    rs_gf_mul a b = gf_mulPacked a b := by
  unfold rs_gf_mul gf_mulPacked
  by_cases h : (a == 0 || b == 0) = true
  · rw [if_pos h, if_pos h]
  · rw [if_neg h, if_neg h, rs_log_eq_plog a ha, rs_log_eq_plog b hb]
    have hba : plog a < 255 := plog_lt a ha
    have hbb : plog b < 255 := plog_lt b hb
    have hsum : (if 255 ≤ plog a + plog b then plog a + plog b - 255 else plog a + plog b)
        = (plog a + plog b) % 255 := by
      by_cases hs : 255 ≤ plog a + plog b
      · rw [if_pos hs]; omega
      · rw [if_neg hs]; omega
    rw [hsum]
    exact rs_exp_eq_pexp _ (by omega)

/-- C9: for every i below 255 both exponent tables (the 0x11D/int build of
init_galois_field in qr_encoder.c and the 0x1D/u8 build of rs_init_tables in
reed_solomon.c) hold the i-th power of the primitive element of GF(256) under
x^8+x^4+x^3+x^2+1; each log table inverts its exponent table on those
indices; and gf_mul and rs_gf_mul return the reference GF(256) product on
every pair of byte operands (including 0 when either operand is 0, by their
zero guard). -/
theorem C9_gf_tables_correct (i a b : Nat) (hi : i < 255) (ha : a < 256) (hb : b < 256) :
    gf_exp i = powAlpha i ∧ rs_exp_table i = powAlpha i ∧
    gf_log (gf_exp i) = i ∧ rs_log_table (rs_exp_table i) = i ∧
    gf_mul a b = gfmulSpec a b ∧ rs_gf_mul a b = gfmulSpec a b := by
  have hei : gf_exp i = pexp i := gf_exp_eq_pexp i (by omega)
  have hri : rs_exp_table i = pexp i := rs_exp_eq_pexp i (by omega)
  refine ⟨?_, ?_, ?_, ?_, ?_, ?_⟩
  · rw [hei]; exact pexp_eq_powAlpha i hi
  · rw [hri]; exact pexp_eq_powAlpha i hi
  · rw [hei, gf_log_eq_plog _ (pexp_lt i)]; exact plog_pexp i hi
  · rw [hri, rs_log_eq_plog _ (pexp_lt i)]; exact plog_pexp i hi
  · rw [gf_mul_eq_packed a b ha hb]; exact gf_mulPacked_eq_gfmulSpec a b ha hb
  · rw [rs_gf_mul_eq_packed a b ha hb]; exact gf_mulPacked_eq_gfmulSpec a b ha hb

/-- Witness for C9 at i = 3, a = 5, b = 7. -/
theorem C9_gf_tables_correct_witness :
    3 < 255 ∧ 5 < 256 ∧ 7 < 256 ∧
    (gf_exp 3 = powAlpha 3 ∧ rs_exp_table 3 = powAlpha 3 ∧
     gf_log (gf_exp 3) = 3 ∧ rs_log_table (rs_exp_table 3) = 3 ∧
     gf_mul 5 7 = gfmulSpec 5 7 ∧ rs_gf_mul 5 7 = gfmulSpec 5 7) :=
  ⟨by decide, by decide, by decide,
   C9_gf_tables_correct 3 5 7 (by decide) (by decide) (by decide)⟩

/-- C7 counterexample: at (L, 0) the hard-coded FORMAT_INFO table holds the
spec value 0x77C4, but rs_generate_format_bits returns 0x5412 (the spec value
of level M), so the table and the function do not agree with one common
definition on all 32 pairs. -/
theorem C7_counterexample_format_disagree :
    (FORMAT_INFO.getD 0 []).getD 0 0 = 0x77C4 ∧
    spec_format_info 0 0 = 0x77C4 ∧
    rs_generate_format_bits 0 0 = 0x5412 ∧
    rs_generate_format_bits 0 0 ≠ spec_format_info 0 0 := by
  refine ⟨rfl, by decide, by decide, by decide⟩

/-- C7 (amended): for all 32 pairs the FORMAT_INFO table equals the spec
format value (BCH generator 0x537, fixed mask 0x5412, standard EC codes
L=01, M=00, Q=11, H=10), and reversing the mask-and-BCH step on the table
value recovers exactly the (ecLevel, maskPattern) pair; rs_generate_format_bits
instead feeds the raw enum value into the 2-bit field, so it equals the spec
format value of the code-swapped level (L and M, Q and H exchanged). -/
theorem C7_format_info_table_correct (ec mask : Nat) (hec : ec < 4) (hm : mask < 8) :
    (FORMAT_INFO.getD ec []).getD mask 0 = spec_format_info ec mask ∧
    spec_format_decode ((FORMAT_INFO.getD ec []).getD mask 0) = (ec, mask) ∧
    rs_generate_format_bits ec mask = spec_format_info (spec_ec_code ec) mask := by
  have h : ∀ e < 4, ∀ m < 8,
      (FORMAT_INFO.getD e []).getD m 0 = spec_format_info e m ∧
      spec_format_decode ((FORMAT_INFO.getD e []).getD m 0) = (e, m) ∧
      rs_generate_format_bits e m = spec_format_info (spec_ec_code e) m := by decide
  exact h ec hec mask hm

/-- Witness for C7 at ec = 2 (Q), mask = 5. -/
theorem C7_format_info_table_correct_witness :
    2 < 4 ∧ 5 < 8 ∧
    ((FORMAT_INFO.getD 2 []).getD 5 0 = spec_format_info 2 5 ∧
     spec_format_decode ((FORMAT_INFO.getD 2 []).getD 5 0) = (2, 5) ∧
     rs_generate_format_bits 2 5 = spec_format_info (spec_ec_code 2) 5) :=
  ⟨by decide, by decide, C7_format_info_table_correct 2 5 (by decide) (by decide)⟩

theorem mask_sel_step_pattern_le (matrix : Nat → Nat → Nat) (size : Nat) (allocs : Nat → Bool)
    (st : MaskSel) (i : Nat) (hi : i ≤ 7) (hst : st.pattern ≤ 7) :
    (mask_sel_step matrix size allocs st i).pattern ≤ 7 := by
  unfold mask_sel_step
  split
  · cases st.best <;> simp only
    · exact hi
    · split
      · exact hi
      · exact hst
  · exact hst

theorem foldl_mask_sel_pattern_le (matrix : Nat → Nat → Nat) (size : Nat) (allocs : Nat → Bool) :
    ∀ (l : List Nat) (st : MaskSel), (∀ i ∈ l, i ≤ 7) → st.pattern ≤ 7 →
      ((l.foldl (mask_sel_step matrix size allocs) st).pattern ≤ 7) := by
  intro l
  induction l with
  | nil => intro st _ hst; exact hst
  | cons a t ih =>
      intro st hl hst
      exact ih _ (fun i hi => hl i (List.mem_cons_of_mem a hi))
        (mask_sel_step_pattern_le matrix size allocs st a (hl a (List.mem_cons_self a t)) hst)

theorem auto_mask_loop_pattern_le (matrix : Nat → Nat → Nat) (size : Nat) (allocs : Nat → Bool)
    (rng : List Nat) : (auto_mask_loop matrix size allocs rng).pattern ≤ 7 := by
  unfold auto_mask_loop
  exact foldl_mask_sel_pattern_le matrix size allocs (List.range 8) ⟨none, 0, rng, 0⟩
    (by decide) (by simp)

theorem xor_one_ne (n : Nat) : n ^^^ 1 ≠ n := by
  intro h
  have h2 := congrArg (fun z => n ^^^ z) h.symm
  simp only [Nat.xor_self] at h2
  rw [← Nat.xor_assoc, Nat.xor_self, Nat.zero_xor] at h2
  exact one_ne_zero h2.symm

/-- C10: error atomicity of qr_encode_text: whenever the call reports
failure (payload too long, an allocation failing, or the forced mask pattern
out of range), the module-data pointer of the returned state is NULL, so no
partially built symbol is exposed. -/
theorem C10_failure_clears_data (st : QrState) (text : List Nat) (ec : Nat) (allocs : Nat → Bool)
    (rng : List Nat) (h : (qr_encode_text st text ec allocs rng).1 = false) :
    (qr_encode_text st text ec allocs rng).2.1.data = none := by
  unfold qr_encode_text at h ⊢
  rcases hv : select_version text.length ec with _ | vi <;>
    simp only [hv] at h ⊢ <;>
    split_ifs at h ⊢ <;>
    simp_all [qr_free]

/-- C8: with auto-mask disabled, qr_encode_text makes no
evaluate_mask_pattern call; when the forced field value lies in 0-7, a
successful call keeps it as the mask of the symbol; a value outside 0-7 is
rejected with failure; and every successful call, forced or automatic,
returns a state whose mask pattern lies in 0-7. -/
theorem C8_forced_mask_behaviour (st : QrState) (text : List Nat) (ec : Nat) (allocs : Nat → Bool)
    (rng : List Nat) (hauto : st.auto_mask = false) :
    (qr_encode_text st text ec allocs rng).2.2 = 0
    ∧ (0 ≤ st.mask_pattern → st.mask_pattern ≤ 7 →
        (qr_encode_text st text ec allocs rng).1 = true →
        (qr_encode_text st text ec allocs rng).2.1.mask_pattern = st.mask_pattern)
    ∧ ((st.mask_pattern < 0 ∨ 7 < st.mask_pattern) →
        (qr_encode_text st text ec allocs rng).1 = false)
    ∧ (∀ st2 : QrState, (qr_encode_text st2 text ec allocs rng).1 = true →
        0 ≤ (qr_encode_text st2 text ec allocs rng).2.1.mask_pattern
        ∧ (qr_encode_text st2 text ec allocs rng).2.1.mask_pattern ≤ 7) := by
  refine ⟨?_, ?_, ?_, ?_⟩
  · unfold qr_encode_text
    rcases hv : select_version text.length ec with _ | vi <;>
      simp only [hv] <;> split_ifs <;> simp_all [qr_free]
  · intro hge hle hsucc
    unfold qr_encode_text at hsucc ⊢
    rcases hv : select_version text.length ec with _ | vi <;>
      simp only [hv] at hsucc ⊢ <;> split_ifs at hsucc ⊢ <;> simp_all [qr_free]
  · intro hbad
    unfold qr_encode_text
    rcases hv : select_version text.length ec with _ | vi <;>
      simp only [hv] <;> split_ifs <;> simp_all [qr_free]
  · intro st2 hsucc
    unfold qr_encode_text at hsucc ⊢
    rcases hv : select_version text.length ec with _ | vi <;>
      simp only [hv] at hsucc ⊢ <;> split_ifs at hsucc ⊢ <;> simp_all [qr_free]

theorem capacity_le_top (v ec : Nat) : version_capacity v ec ≤ version_capacity 5 ec := by
  have hoob : ∀ (a b c d : Nat) (e : Nat), [a, b, c, d].getD (e + 4) 0 = 0 :=
    fun a b c d e => List.getD_eq_default _ _ (by simp)
  have key : ∀ k, (VERSION_INFO.getD k (0, 0, [])).2.2.getD ec 0
      ≤ [106, 84, 60, 44].getD ec 0 := by
    intro k
    match k with
    | 0 | 1 | 2 | 3 | 4 =>
      rcases ec with _ | _ | _ | _ | e
      · decide
      · decide
      · decide
      · decide
      · simp [VERSION_INFO, hoob]
    | k + 5 =>
      rw [List.getD_eq_default _ _ (by simp [VERSION_INFO])]
      exact Nat.zero_le _
  exact key (v - 1)

theorem select_version_eq (len ec : Nat) :
    select_version len ec =
      if len ≤ version_capacity 1 ec then some (1, 21, [17, 14, 11, 7])
      else if len ≤ version_capacity 2 ec then some (2, 25, [32, 26, 20, 14])
      else if len ≤ version_capacity 3 ec then some (3, 29, [53, 42, 32, 24])
      else if len ≤ version_capacity 4 ec then some (4, 33, [78, 62, 46, 34])
      else if len ≤ version_capacity 5 ec then some (5, 37, [106, 84, 60, 44])
      else none := by
  by_cases h1 : len ≤ [17, 14, 11, 7].getD ec 0 <;>
    by_cases h2 : len ≤ [32, 26, 20, 14].getD ec 0 <;>
    by_cases h3 : len ≤ [53, 42, 32, 24].getD ec 0 <;>
    by_cases h4 : len ≤ [78, 62, 46, 34].getD ec 0 <;>
    by_cases h5 : len ≤ [106, 84, 60, 44].getD ec 0 <;>
    simp only [List.getD_eq_getElem?_getD] at h1 h2 h3 h4 h5 <;>
    simp [select_version, VERSION_INFO, List.find?, version_capacity, h1, h2, h3, h4, h5]

/-- C5 (amended): with automatic masking and successful allocations,
qr_encode_text succeeds exactly when the payload length is at most the
VERSION_INFO capacity of version 5 at the EC level; on success the module
size is 17 + 4 * v for the smallest version v of the table whose capacity
reaches the length, so the payload fits version v and, above version 1,
exceeds the capacity of version v - 1. -/
theorem C5_version_selection_corrected (st : QrState) (text : List Nat) (ec : Nat) (rng : List Nat)
    (hauto : st.auto_mask = true) (hec : ec < 4) :
    ((qr_encode_text st text ec (fun _ => true) rng).1 = true ↔
      text.length ≤ version_capacity 5 ec)
    ∧ (text.length ≤ version_capacity 5 ec →
        (qr_encode_text st text ec (fun _ => true) rng).2.1.size
            = 17 + 4 * spec_min_version text.length ec
          ∧ text.length ≤ version_capacity (spec_min_version text.length ec) ec
          ∧ (spec_min_version text.length ec = 1
              ∨ version_capacity (spec_min_version text.length ec - 1) ec < text.length)) := by
  have hcap5 : (VERSION_INFO.getD 4 (0, 0, [])).2.2.getD ec 0 = version_capacity 5 ec := rfl
  have hp : ∀ (m : Nat → Nat → Nat) (s : Nat),
      ¬ 7 < (auto_mask_loop m s (fun _ => true) rng).pattern :=
    fun m s => Nat.not_lt.mpr (auto_mask_loop_pattern_le m s (fun _ => true) rng)
  have hc1 := capacity_le_top 1 ec
  have hc2 := capacity_le_top 2 ec
  have hc3 := capacity_le_top 3 ec
  have hc4 := capacity_le_top 4 ec
  by_cases h1 : text.length ≤ version_capacity 1 ec
  · have hno : ¬ (VERSION_INFO.getD 4 (0, 0, [])).2.2.getD ec 0 < text.length := by
      rw [hcap5]; omega
    simp only [List.getD_eq_getElem?_getD] at hno
    simp [qr_encode_text, select_version_eq, h1, hno, qr_free, hauto, hp, spec_min_version]
    omega
  · by_cases h2 : text.length ≤ version_capacity 2 ec
    · have hno : ¬ (VERSION_INFO.getD 4 (0, 0, [])).2.2.getD ec 0 < text.length := by
        rw [hcap5]; omega
      simp only [List.getD_eq_getElem?_getD] at hno
      simp [qr_encode_text, select_version_eq, h1, h2, hno, qr_free, hauto, hp, spec_min_version]
      omega
    · by_cases h3 : text.length ≤ version_capacity 3 ec
      · have hno : ¬ (VERSION_INFO.getD 4 (0, 0, [])).2.2.getD ec 0 < text.length := by
          rw [hcap5]; omega
        simp only [List.getD_eq_getElem?_getD] at hno
        simp [qr_encode_text, select_version_eq, h1, h2, h3, hno, qr_free, hauto, hp,
          spec_min_version]
        omega
      · by_cases h4 : text.length ≤ version_capacity 4 ec
        · have hno : ¬ (VERSION_INFO.getD 4 (0, 0, [])).2.2.getD ec 0 < text.length := by
            rw [hcap5]; omega
          simp only [List.getD_eq_getElem?_getD] at hno
          simp [qr_encode_text, select_version_eq, h1, h2, h3, h4, hno, qr_free, hauto, hp,
            spec_min_version]
          omega
        · by_cases h5 : text.length ≤ version_capacity 5 ec
          · have hno : ¬ (VERSION_INFO.getD 4 (0, 0, [])).2.2.getD ec 0 < text.length := by
              rw [hcap5]; omega
            simp only [List.getD_eq_getElem?_getD] at hno
            simp [qr_encode_text, select_version_eq, h1, h2, h3, h4, h5, hno, qr_free, hauto,
              hp, spec_min_version]
            omega
          · have hyes : (VERSION_INFO.getD 4 (0, 0, [])).2.2.getD ec 0 < text.length := by
              rw [hcap5]; omega
            simp only [List.getD_eq_getElem?_getD] at hyes
            simp [qr_encode_text, select_version_eq, h1, h2, h3, h4, h5, hyes, qr_free]

/-- C1: encode_data copies the payload bytes verbatim and produces no
byte-mode framing: for payload [65] at version 1 level L the stored stream
is [65] itself, of length 1, while the spec framing is the full 19-codeword
stream 0x40 0x14 0x10 followed by alternating pad bytes. -/
theorem C1_encode_data_not_framed :
    encode_data_stream [65] = [65]
    ∧ encode_data_buffer 21 [65] 0 0 = 65 ∧ encode_data_buffer 21 [65] 0 1 = 0
    ∧ (spec_data_encode 1 19 [65]).length = 19
    ∧ spec_data_encode 1 19 [65] =
        [64, 20, 16, 236, 17, 236, 17, 236, 17, 236, 17, 236, 17, 236, 17, 236, 17, 236, 17]
    ∧ encode_data_stream [65] ≠ spec_data_encode 1 19 [65] := by
  refine ⟨rfl, by decide, by decide, by decide, by decide, by decide⟩

/-- C3: encoding is not a function of (payload, ecLevel, mask mode) alone:
two qr_encode_text calls on identical inputs but different PRNG states
select different masks (0 versus 1) and produce module matrices that differ
at cell (9, 9). -/
theorem C3_output_depends_on_prng :
    (qr_encode_text ⟨0, none, 0, 0, 0, true⟩ [72, 73] 0 (fun _ => true)
        [0, 99, 99, 99, 99, 99, 99, 99]).2.1.mask_pattern = 0
    ∧ (qr_encode_text ⟨0, none, 0, 0, 0, true⟩ [72, 73] 0 (fun _ => true)
        [99, 0, 99, 99, 99, 99, 99, 99]).2.1.mask_pattern = 1
    ∧ ((qr_encode_text ⟨0, none, 0, 0, 0, true⟩ [72, 73] 0 (fun _ => true)
        [0, 99, 99, 99, 99, 99, 99, 99]).2.1.data.map (fun f => f 9 9)) = some 0
    ∧ ((qr_encode_text ⟨0, none, 0, 0, 0, true⟩ [72, 73] 0 (fun _ => true)
        [99, 0, 99, 99, 99, 99, 99, 99]).2.1.data.map (fun f => f 9 9)) = some 1 := by
  refine ⟨by decide, by decide, by decide, by decide⟩

/-- C4: evaluate_mask_pattern computes no penalty rules: its score is
rand() % 100, independent of the matrix and the size, and consequently the
pattern picked by the automatic selection loop follows the PRNG stream, not
the standard penalties. -/
theorem C4_penalty_score_ignores_matrix :
    (∀ (m1 m2 : Nat → Nat → Nat) (s1 s2 v : Nat),
      evaluate_mask_pattern m1 s1 v = evaluate_mask_pattern m2 s2 v)
    ∧ (auto_mask_loop (create_matrix 21 0 0) 21 (fun _ => true)
        [0, 99, 99, 99, 99, 99, 99, 99]).pattern = 0
    ∧ (auto_mask_loop (create_matrix 21 0 0) 21 (fun _ => true)
        [99, 0, 99, 99, 99, 99, 99, 99]).pattern = 1 :=
  ⟨fun _ _ _ _ _ => rfl, by decide, by decide⟩

/-- C5 counterexample: a 107-byte payload at level L is rejected by
qr_encode_text although it is far below the version-40 level-L capacity of
2953 bytes the claim names: only versions 1-5 exist in the table, so the
cap is the version-5 capacity. -/
theorem C5_counterexample_capacity_limit :
    (qr_encode_text ⟨0, none, 0, 0, 0, true⟩ (List.replicate 107 65) 0 (fun _ => true) []).1
        = false
    ∧ 107 ≤ 2953 :=
  ⟨by decide, by decide⟩

/-- C6 counterexample: in a version-2 symbol the centre module (18, 18) of
the alignment pattern is a reserved function-pattern module, create_matrix
sets it dark, yet apply_mask with pattern 0 flips it to light: masking does
not skip alignment patterns. -/
theorem C6_counterexample_alignment_flipped :
    spec_alignment_module 25 18 18 = true
    ∧ create_matrix 25 0 0 18 18 = 1
    ∧ apply_mask 25 0 (create_matrix 25 0 0) 18 18 = 0 := by
  refine ⟨by decide, by decide, by decide⟩

/-- C6 (amended): apply_mask flips a module of the grid exactly when the
cell is outside the skip set of the source (row or column 6 and the three
9-by-9 corner regions) and the mask formula evaluates true there; the skip
set does not contain the alignment-pattern block of any supported version
2-5, so those reserved modules are flipped whenever the formula holds. -/
theorem C6_mask_flip_corrected (size : Nat) (p : Int) (m : Nat → Nat → Nat) (y x : Nat)
    (hy : y < size) (hx : x < size) :
    (apply_mask size p m y x ≠ m y x ↔
      (mask_skip size y x = false ∧ mask_flip p y x = true))
    ∧ (∀ v < 6, ∀ dy < 5, ∀ dx < 5, 2 ≤ v →
        mask_skip (17 + 4 * v) (ALIGNMENT_POSITIONS v - 2 + dy)
          (ALIGNMENT_POSITIONS v - 2 + dx) = false) := by
  constructor
  · unfold apply_mask
    split_ifs with h
    · exact ⟨fun _ => ⟨h.2.2.1, h.2.2.2⟩, fun _ => xor_one_ne (m y x)⟩
    · exact ⟨fun hne => absurd rfl hne, fun hc => absurd ⟨hy, hx, hc.1, hc.2⟩ h⟩
  · decide

theorem C6_mask_flip_corrected_witness :
    ((apply_mask 21 0 (fun _ _ => 0) 9 9 ≠ (fun _ _ => 0) 9 9 ↔
        (mask_skip 21 9 9 = false ∧ mask_flip 0 9 9 = true))
      ∧ (∀ v < 6, ∀ dy < 5, ∀ dx < 5, 2 ≤ v →
          mask_skip (17 + 4 * v) (ALIGNMENT_POSITIONS v - 2 + dy)
            (ALIGNMENT_POSITIONS v - 2 + dx) = false)) :=
  C6_mask_flip_corrected 21 0 (fun _ _ => 0) 9 9 (by decide) (by decide)

theorem C8_forced_mask_behaviour_witness :
    (qr_encode_text ⟨0, none, 0, 0, 3, false⟩ [65] 1 (fun _ => true) []).2.2 = 0
    ∧ (qr_encode_text ⟨0, none, 0, 0, 3, false⟩ [65] 1 (fun _ => true) []).1 = true
    ∧ (qr_encode_text ⟨0, none, 0, 0, 3, false⟩ [65] 1 (fun _ => true) []).2.1.mask_pattern
        = 3 := by
  obtain ⟨e0, hpres, hrej, hrange⟩ :=
    C8_forced_mask_behaviour ⟨0, none, 0, 0, 3, false⟩ [65] 1 (fun _ => true) [] rfl
  exact ⟨e0, by decide, hpres (by decide) (by decide) (by decide)⟩

theorem C10_failure_clears_data_witness :
    (qr_encode_text ⟨0, none, 0, 0, 0, true⟩ (List.replicate 107 65) 0
        (fun _ => true) []).2.1.data = none :=
  C10_failure_clears_data ⟨0, none, 0, 0, 0, true⟩ (List.replicate 107 65) 0 (fun _ => true) [] (by decide)

theorem C5_version_selection_corrected_witness :
    ((qr_encode_text ⟨0, none, 0, 0, 0, true⟩ (List.replicate 30 65) 0
          (fun _ => true) [5]).1 = true
      ↔ (List.replicate 30 65).length ≤ version_capacity 5 0)
    ∧ ((List.replicate 30 65).length ≤ version_capacity 5 0 →
        (qr_encode_text ⟨0, none, 0, 0, 0, true⟩ (List.replicate 30 65) 0
            (fun _ => true) [5]).2.1.size
            = 17 + 4 * spec_min_version (List.replicate 30 65).length 0
          ∧ (List.replicate 30 65).length
              ≤ version_capacity (spec_min_version (List.replicate 30 65).length 0) 0
          ∧ (spec_min_version (List.replicate 30 65).length 0 = 1
              ∨ version_capacity (spec_min_version (List.replicate 30 65).length 0 - 1) 0
                  < (List.replicate 30 65).length)) :=
  C5_version_selection_corrected ⟨0, none, 0, 0, 0, true⟩ (List.replicate 30 65) 0 [5] rfl (by decide)
